import Mathlib

/-!
Verification of the Scale job lifecycle and resource-accounting core.

Shallow embedding of the repository sources:
  * `scale/node/resources/node_resources.py` (resource vectors)
  * `scale/job/models.py` (Job / JobExecution models and their managers)

Python runtime behaviour is modeled explicitly: fallible operations return
`Except PyError`, where `PyError` covers raised `Exception`s, attribute and
key errors, and Django's `DoesNotExist` / `MultipleObjectsReturned`.
Scalar values (Python floats) are modeled as exact rationals; machine times
are abstract naturals; database rows live in explicit lists.
-/

namespace Scale

/-- A raised Python error. `exception` models `raise Exception(msg)`,
`attributeError` a failed attribute lookup, `keyError` a failed dict lookup,
and the last two model Django's `Model.objects.get` failures. -/
inductive PyError
  | exception (msg : String)
  | attributeError (msg : String)
  | keyError
  | doesNotExist
  | multipleObjectsReturned
deriving DecidableEq

/-- Django `Model.objects.get(**kwargs)`: exactly one matching row is returned;
zero rows raise `DoesNotExist` and several raise `MultipleObjectsReturned`. -/
def djangoGet {α : Type} (l : List α) (p : α → Bool) : Except PyError α :=
  match l.filter p with
  | [a] => .ok a
  | [] => .error .doesNotExist
  | _ => .error .multipleObjectsReturned

/-- Python `d[key]` on a dict with int keys; raises `KeyError` when absent.
The dict is modeled as an association list with distinct keys. -/
def pyDictGet (d : List (Nat × Nat)) (key : Nat) : Except PyError Nat :=
  match d.find? (fun kv => kv.1 == key) with
  | some kv => .ok kv.2
  | none => .error .keyError

/-! ## Resource vectors (node/resources/node_resources.py)

Every resource appearing in the sources (`Cpus`, `Mem`, `Disk` and custom
job-type resources) is of the SCALAR kind, so the `ScaleLogicBug` branch of
the constructor for unsupported kinds is unreachable and a resource is just
a named rational value. -/

/-- One named scalar resource (a `node.resources.resource` object). -/
structure Resource where
  name : String
  value : ℚ
deriving DecidableEq

/-- The `NodeResources` dict `{name: resource}`, as an insertion-ordered
association list with distinct names. -/
structure NodeResources where
  resources : List Resource
deriving DecidableEq

/-- `name in self._resources`. -/
def NodeResources.has (self : NodeResources) (name : String) : Bool :=
  self.resources.any (fun r => r.name == name)

/-- `self._resources[name].value`, `none` when the name is absent
(where the source would raise `KeyError`). -/
def NodeResources.get (self : NodeResources) (name : String) : Option ℚ :=
  (self.resources.find? (fun r => r.name == name)).map (fun r => r.value)

/-- Dict insertion `self._resources[r.name] = r` (overwrite or append). -/
def setResource (rs : List Resource) (r : Resource) : List Resource :=
  if rs.any (fun x => x.name == r.name) then
    rs.map (fun x => if x.name = r.name then r else x)
  else rs ++ [r]

/-- The `NodeResources(resources)` constructor: inserts the given resources,
then makes sure the standard `cpus`/`mem`/`disk` resources are defined. -/
def nodeResources (l : List Resource) : NodeResources :=
  let rs := l.foldl setResource []
  let rs := if rs.any (fun x => x.name == "cpus") then rs else rs ++ [⟨"cpus", 0⟩]
  let rs := if rs.any (fun x => x.name == "mem") then rs else rs ++ [⟨"mem", 0⟩]
  let rs := if rs.any (fun x => x.name == "disk") then rs else rs ++ [⟨"disk", 0⟩]
  ⟨rs⟩

/-- One step of `NodeResources.add`: sum into an existing resource of the same
name, else insert a copy of the incoming resource. -/
def addResource (rs : List Resource) (r : Resource) : List Resource :=
  if rs.any (fun x => x.name == r.name) then
    rs.map (fun x => if x.name = r.name then { x with value := x.value + r.value } else x)
  else rs ++ [r]

/-- `NodeResources.add(node_resources)`. -/
def NodeResources.add (self other : NodeResources) : NodeResources :=
  ⟨other.resources.foldl addResource self.resources⟩

/-- One step of `NodeResources.subtract`: subtract from an existing resource of
the same name; names absent from self are skipped. -/
def subResource (rs : List Resource) (r : Resource) : List Resource :=
  if rs.any (fun x => x.name == r.name) then
    rs.map (fun x => if x.name = r.name then { x with value := x.value - r.value } else x)
  else rs

/-- `NodeResources.subtract(node_resources)`. -/
def NodeResources.subtract (self other : NodeResources) : NodeResources :=
  ⟨other.resources.foldl subResource self.resources⟩

/-- Python `round(x, 5)` used by `is_equal`. Modeled as rounding to the nearest
multiple of 1/100000; Python rounds exact ties to even, which no statement
below exercises. -/
def round5 (q : ℚ) : ℚ := ((round (q * 100000) : ℤ) : ℚ) / 100000

/-- `NodeResources.is_equal(node_resources)`: the two name sets must coincide
exactly, and every value must agree after rounding to 5 decimal digits.
(The value lookup is only reached once the name sets are known to be equal,
so the `getD 0` default never materializes.) -/
def NodeResources.is_equal (self other : NodeResources) : Bool :=
  (self.resources.all (fun r => other.has r.name) &&
    other.resources.all (fun r => self.has r.name)) &&
  other.resources.all (fun r =>
    decide (round5 ((self.get r.name).getD 0) = round5 r.value))

/-- Modelled from the spec: `NodeResources.remove_resource(name)` is invoked by
`JobType.get_resources` in `job/models.py` but its body is not among the
provided sources; per the spec's resource-vector description it deletes the
named resource from the vector (a no-op when the name is absent). -/
def NodeResources.remove_resource (self : NodeResources) (name : String) : NodeResources :=
  ⟨self.resources.filter (fun r => r.name != name)⟩

/-! ## Data model (job/models.py) -/

/-- The allowed `Job.status` values (`Job.JOB_STATUSES`). -/
inductive JobStatus
  | PENDING
  | BLOCKED
  | QUEUED
  | RUNNING
  | FAILED
  | COMPLETED
  | CANCELED
deriving DecidableEq

/-- `Job.FINAL_STATUSES`. -/
def FINAL_STATUSES : List JobStatus := [.FAILED, .COMPLETED, .CANCELED]

/-- Required resource minimums for jobs (module constants). -/
def MIN_CPUS : ℚ := 1 / 4

/-- `MIN_MEM = 128.0`. -/
def MIN_MEM : ℚ := 128

/-- `MIN_DISK = 0.0`. -/
def MIN_DISK : ℚ := 0

/-- The `JobType` model: only the fields the job lifecycle reads are kept.
`custom_resources` stands for the JSON custom-resources mapping, already in
resource-list form. Field defaults mirror the model's column defaults. -/
structure JobType where
  id : Nat
  name : String := "job-type"
  version : String := "1.0"
  is_active : Bool := true
  revision_num : Nat := 1
  priority : Int := 100
  timeout : Int := 1800
  max_tries : Int := 3
  cpus_required : ℚ := 1
  mem_const_required : ℚ := 64
  mem_mult_required : ℚ := 0
  shared_mem_required : ℚ := 0
  disk_out_const_required : ℚ := 64
  disk_out_mult_required : ℚ := 0
  custom_resources : List Resource := []
deriving DecidableEq

/-- The `JobTypeRevision` model (immutable snapshot of a job type's
interface, natural key `(job_type, revision_num)`). The interface JSON is
abstracted to an opaque association list. -/
structure JobTypeRevision where
  id : Nat
  job_type_id : Nat
  revision_num : Nat
  interface : List (String × Int) := []
deriving DecidableEq

/-- The `Job` model. JSON fields (`data`, `results`) are abstracted to
association lists whose Python truthiness is list non-emptiness (`{}` is
falsy); nullable datetime columns are `Option Nat`; foreign keys other than
the related `job_type`/`job_type_rev` models are held by id.
NOTE: the model declares `num_exes` but no field named `exe_num`. -/
structure Job where
  id : Nat
  job_type : JobType
  job_type_rev : Option JobTypeRevision := none
  status : JobStatus := .PENDING
  event : Option Nat := none
  error : Option Nat := none
  data : List (String × Int) := []
  results : List (String × Int) := []
  priority : Int := 100
  timeout : Int := 1800
  max_tries : Int := 3
  num_exes : Nat := 0
  disk_in_required : Option ℚ := none
  disk_out_required : Option ℚ := none
  is_superseded : Bool := false
  root_superseded_job : Option Nat := none
  superseded_job : Option Nat := none
  delete_superseded : Bool := true
  queued : Option Nat := none
  started : Option Nat := none
  ended : Option Nat := none
  last_status_change : Option Nat := none
  superseded : Option Nat := none
  last_modified : Option Nat := none
deriving DecidableEq

/-- Python attribute access `job.exe_num` on a `Job` model instance. The Job
model defines no field of that name (its execution counter is `num_exes`), so
the access raises `AttributeError` at runtime. -/
def Job.exe_num_attr (_ : Job) : Except PyError Nat :=
  .error (.attributeError "Job object has no attribute exe_num")

/-- Python attribute access `<int>.status` (from `locked_job.exe_num.status`):
an integer has no `status` attribute, so this raises `AttributeError`. -/
def pyIntStatusAttr (_ : Nat) : Except PyError String :=
  .error (.attributeError "int object has no attribute status")

/-- `Job._is_ready_to_queue`: status in `['PENDING', 'CANCELED', 'FAILED']`. -/
def Job.is_ready_to_queue (job : Job) : Bool :=
  job.status == .PENDING || job.status == .CANCELED || job.status == .FAILED

/-- `Job._can_be_canceled`: status not in `['COMPLETED', 'CANCELED']`. -/
def Job.can_be_canceled (job : Job) : Bool :=
  !(job.status == .COMPLETED || job.status == .CANCELED)

/-- `JobType.get_resources`: custom resources with the standard names
stripped, plus cpus floored at `MIN_CPUS`. `Resources(...).get_node_resources()`
(a JSON-schema wrapper not among the sources) is the `nodeResources`
constructor on the custom-resources list. -/
def JobType.get_resources (jt : JobType) : NodeResources :=
  let resources := (((nodeResources jt.custom_resources).remove_resource "cpus").remove_resource
    "mem").remove_resource "disk"
  let cpus := max jt.cpus_required MIN_CPUS
  resources.add (nodeResources [⟨"cpus", cpus⟩])

/-- `Job.get_resources`: composes the job type's base resources with the
job-specific memory and disk derived from `disk_in_required` by the job
type's linear formulas, floored at `MIN_MEM`/`MIN_DISK`. -/
def Job.get_resources (job : Job) : NodeResources :=
  let resources := job.job_type.get_resources
  -- `if not disk_in_required: disk_in_required = 0.0` (None and 0.0 are falsy)
  let disk_in_required : ℚ :=
    match job.disk_in_required with
    | some d => if d == 0 then 0 else d
    | none => 0
  let memory_mb : ℚ :=
    ((Int.ceil (job.job_type.mem_mult_required * disk_in_required +
      job.job_type.mem_const_required) : ℤ) : ℚ)
  let memory_required := max memory_mb MIN_MEM
  let output_size_mb : ℚ :=
    ((Int.ceil (job.job_type.disk_out_mult_required * disk_in_required +
      job.job_type.disk_out_const_required) : ℤ) : ℚ)
  let disk_out_required := max output_size_mb MIN_DISK
  resources.add (nodeResources [⟨"mem", memory_required⟩,
    ⟨"disk", disk_out_required + disk_in_required⟩])

/-- `JobExecution` model (only the fields its manager's status update touches;
the related `job` model is held by value as Django holds the fetched row). -/
structure JobExecution where
  id : Nat
  job : Job
  exe_num : Option Nat := none
  status : Option JobStatus := none
  error : Option Nat := none
  timeout : Int := 1800
  queued : Option Nat := none
  started : Option Nat := none
  ended : Option Nat := none
  last_modified : Option Nat := none
deriving DecidableEq

/-- `JobExecutionOutput` model (primary key `job_exe`, plus the
`(job, exe_num)` pair used for lookup, and the output mapping). -/
structure JobExecutionOutput where
  job_exe_id : Nat
  job_id : Nat
  job_type_id : Nat
  exe_num : Nat
  output : List (String × Int) := []
deriving DecidableEq

/-- The persistent store: the tables the embedded operations read. -/
structure Db where
  jobs : List Job := []
  job_exe_outputs : List JobExecutionOutput := []
  job_type_revisions : List JobTypeRevision := []
deriving DecidableEq

/-- `JobTypeRevisionManager.get_revision(job_type_id, revision_num)`:
`JobTypeRevision.objects.get(job_type_id=..., revision_num=...)`. -/
def JobTypeRevisionManager.get_revision (db : Db) (job_type_id revision_num : Nat) :
    Except PyError JobTypeRevision :=
  djangoGet db.job_type_revisions
    (fun r => r.job_type_id == job_type_id && r.revision_num == revision_num)

/-! ## JobManager -/

/-- Insertion of a job into an id-sorted list (ascending). -/
def insertById (j : Job) : List Job → List Job
  | [] => [j]
  | k :: ks => if j.id ≤ k.id then j :: k :: ks else k :: insertById j ks

/-- Ascending-id sort used by `order_by('id')`. -/
def sortById (l : List Job) : List Job := l.foldr insertById []

/-- `JobManager.get_locked_jobs(job_ids)`: the job rows with the given ids,
locked in ascending-id order. -/
def JobManager.get_locked_jobs (db : Db) (job_ids : List Nat) : List Job :=
  sortById (db.jobs.filter (fun j => job_ids.contains j.id))

/-- The per-job field assignment performed by `JobManager.update_status` (both
on the in-memory models and, with identical values, by the bulk query). -/
def updateStatusJobFields (status : JobStatus) (when now : Nat) (error : Option Nat)
    (job : Job) : Job :=
  let change_started := status = .RUNNING
  let ended := if FINAL_STATUSES.contains status then some when else none
  { job with
    status := status
    last_status_change := some when
    started := if change_started then some when else job.started
    ended := ended
    error := error
    last_modified := some now }

/-- `JobManager.update_status(jobs, status, when, error=None)`: guard checks
raise; on success every job in the batch receives the same field update.
`now` stands for the `timezone.now()` read for `last_modified`. -/
def JobManager.update_status (jobs : List Job) (status : JobStatus) (when now : Nat)
    (error : Option Nat) : Except PyError (List Job) :=
  if status = .QUEUED then
    .error (.exception "Changing status to QUEUED must use the queue_jobs() method")
  else if status = .FAILED ∧ error = none then
    .error (.exception "An error is required when status is FAILED")
  else if ¬status = .FAILED ∧ ¬error = none then
    .error (.exception "Status is invalid with an error")
  else
    .ok (jobs.map (updateStatusJobFields status when now error))

/-- `JobManager.fail_job(job, when, error)`: sets FAILED with the given error
and times. The source performs no validation of `error`; the operation is
modeled in `Except` to make (the absence of) a rejection observable. -/
def JobManager.fail_job (job : Job) (when : Nat) (error : Option Nat) :
    Except PyError Job :=
  .ok { job with
    status := .FAILED
    error := error
    ended := some when
    last_status_change := some when }

/-- `JobManager.complete_job(job, when)`: marks COMPLETED, then queries
`JobExecutionOutput.objects.get(job_id=job.id, exe_num=job.exe_num)` for the
results. (`job.exe_num` is an attribute the Job model does not define.) The
trailing batch-counter notification touches the external `batch` collaborator
and is outside the embedded core. -/
def JobManager.complete_job (db : Db) (job : Job) (when : Nat) : Except PyError Job :=
  let job := { job with status := .COMPLETED, ended := some when, last_status_change := some when }
  match job.exe_num_attr with
  | .error e => .error e
  | .ok exe_num =>
    match djangoGet db.job_exe_outputs
        (fun o => o.job_id == job.id && o.exe_num == exe_num) with
    | .error e => .error e
    | .ok job_exe_output => .ok { job with results := job_exe_output.output }

/-- `JobManager.create_job(job_type, event, superseded_job=None,
delete_superseded=True)`: guards, then builds the unsaved job (primary key
still unassigned, modeled as 0) pinned to the job type's current revision,
linking it into the supersession chain when a superseded job is given. -/
def JobManager.create_job (db : Db) (job_type : JobType) (event : Option Nat)
    (superseded_job : Option Job) (delete_superseded : Bool) : Except PyError Job :=
  if !job_type.is_active then
    .error (.exception "Job type is no longer active")
  else if event.isNone then
    .error (.exception "Event that triggered job creation is required")
  else
    match JobTypeRevisionManager.get_revision db job_type.id job_type.revision_num with
    | .error e => .error e
    | .ok rev =>
      let job : Job :=
        { id := 0, job_type := job_type, job_type_rev := some rev,
          event := event, priority := job_type.priority, timeout := job_type.timeout,
          max_tries := job_type.max_tries }
      match superseded_job with
      | none => .ok job
      | some sj =>
        -- root_id = superseded_job.root_superseded_job_id; `if not root_id:` is a
        -- Python truthiness test (None and 0 are both falsy)
        let root_id := match sj.root_superseded_job with
          | some r => if r != 0 then r else sj.id
          | none => sj.id
        .ok { job with
              root_superseded_job := some root_id
              superseded_job := some sj.id
              delete_superseded := delete_superseded }

/-- Python truthiness of the optional `priority` argument of `queue_jobs`
(`if priority:`): `None` and `0` are falsy. -/
def priorityTruthy : Option Int → Bool
  | none => false
  | some p => p != 0

/-- `if not job.is_ready_to_queue or not job.data or job.is_superseded: continue` -/
def jobSkippedByQueue (job : Job) : Bool :=
  !job.is_ready_to_queue || job.data.isEmpty || job.is_superseded

/-- The field assignment `queue_jobs` performs on each job it queues. -/
def queueJobFields (when : Nat) (priority : Option Int) (job : Job) : Job :=
  { job with
    status := .QUEUED
    error := none
    queued := some when
    started := none
    ended := none
    last_status_change := some when
    num_exes := job.num_exes + 1
    priority := if priorityTruthy priority then priority.getD job.priority else job.priority
    last_modified := some when }

/-- `JobManager.queue_jobs(jobs, when, priority=None)`: skips jobs that are not
ready to queue, lack data, or are superseded; queues the rest; returns the pair
of (the whole batch after the in-place updates, the `jobs_to_queue` list the
method returns). -/
def JobManager.queue_jobs (jobs : List Job) (when : Nat) (priority : Option Int) :
    List Job × List Job :=
  let updated := jobs.map (fun job =>
    if jobSkippedByQueue job then job else queueJobFields when priority job)
  let jobs_to_queue := (jobs.filter (fun job => !jobSkippedByQueue job)).map
    (queueJobFields when priority)
  (updated, jobs_to_queue)

/-- The per-job marking performed by `supersede_jobs` (in memory and, with the
same values, by its bulk query). -/
def supersedeJobFields (when now : Nat) (job : Job) : Job :=
  { job with is_superseded := true, superseded := some when, last_modified := some now }

/-- `job.status in ['PENDING', 'BLOCKED']`. -/
def pendingOrBlocked (job : Job) : Bool :=
  job.status == .PENDING || job.status == .BLOCKED

/-- `JobManager.supersede_jobs(jobs, when)`: marks every job in the batch
superseded, then cancels (via `update_status`) those still PENDING or BLOCKED.
`now` is the `timezone.now()` read by `supersede_jobs` itself and `now2` the
one read inside the nested `update_status` call. `update_status` mutates the
members of `jobs_to_cancel` in place, so its per-job field update lands on
exactly those members of the batch. -/
def JobManager.supersede_jobs (jobs : List Job) (when now now2 : Nat) :
    Except PyError (List Job) :=
  let marked := jobs.map (supersedeJobFields when now)
  let jobs_to_cancel := marked.filter pendingOrBlocked
  if jobs_to_cancel.isEmpty then .ok marked
  else
    match JobManager.update_status jobs_to_cancel .CANCELED when now2 none with
    | .error e => .error e
    | .ok _ =>
      .ok (marked.map (fun job =>
        if job.status = .PENDING ∨ job.status = .BLOCKED then
          updateStatusJobFields .CANCELED when now2 none job
        else job))

/-- The loop body of `JobManager.update_jobs_to_running`, iterating the locked
jobs in order and accumulating `jobs_to_update` / `jobs_to_update_no_status`:

    exe_num = jobs[locked_job.exe_num]
    if locked_job.exe_num != exe_num:
        continue
    if locked_job.exe_num.status == 'QUEUED': ...

Each `locked_job.exe_num` is an attribute access the Job model cannot satisfy,
and `.status` on the resulting int could not be satisfied either; the raised
errors propagate out of the (atomic) transaction. -/
def runningLoop (jobs : List (Nat × Nat)) (locked : List Job) (upd no_upd : List Nat) :
    Except PyError (List Nat × List Nat) :=
  match locked with
  | [] => .ok (upd, no_upd)
  | locked_job :: rest =>
    match locked_job.exe_num_attr with
    | .error e => .error e
    | .ok key =>
      match pyDictGet jobs key with
      | .error e => .error e
      | .ok exe_num =>
        match locked_job.exe_num_attr with
        | .error e => .error e
        | .ok current =>
          if current ≠ exe_num then runningLoop jobs rest upd no_upd
          else
            match pyIntStatusAttr current with
            | .error e => .error e
            | .ok s =>
              if s == "QUEUED" then runningLoop jobs rest (upd ++ [locked_job.id]) no_upd
              else runningLoop jobs rest upd (no_upd ++ [locked_job.id])

/-- `JobManager.update_jobs_to_running(jobs, when)` where `jobs` is the dict
mapping each job ID to its running execution number: locks the rows for the
dict's keys, runs the loop above, then issues the two bulk updates (full
update for `jobs_to_update`, timing-only for `jobs_to_update_no_status`). -/
def JobManager.update_jobs_to_running (db : Db) (jobs : List (Nat × Nat)) (when now : Nat) :
    Except PyError Db :=
  match runningLoop jobs (JobManager.get_locked_jobs db (jobs.map (fun kv => kv.1))) [] [] with
  | .error e => .error e
  | .ok (jobs_to_update, jobs_to_update_no_status) =>
    let db1 := if jobs_to_update.isEmpty then db else
      { db with jobs := db.jobs.map (fun j =>
          if jobs_to_update.contains j.id then
            { j with
              status := .RUNNING
              last_status_change := some when
              started := some when
              last_modified := some now }
          else j) }
    let db2 := if jobs_to_update_no_status.isEmpty then db1 else
      { db1 with jobs := db1.jobs.map (fun j =>
          if jobs_to_update_no_status.contains j.id then
            { j with started := some when, last_modified := some now }
          else j) }
    .ok db2

/-- `JobManager.populate_job_data(job, data)`: sums the input file sizes
(resolved from the storage catalog, passed here directly), rounds up to whole
MiB, and derives the disk requirements by the job type's linear formula.
Interface validation and the `JobInputFile`/`FileAncestryLink` persistence
involve collaborator modules outside the job core; only the job-model field
derivation is embedded. -/
def JobManager.populate_job_data (job : Job) (data : List (String × Int))
    (input_file_sizes : List Nat) (now : Nat) : Job :=
  let input_size_bytes : Nat := input_file_sizes.foldl (fun a b => a + b) 0
  let input_size_mb : ℚ := ((Int.ceil ((input_size_bytes : ℚ) / (1024 * 1024)) : ℤ) : ℚ)
  let multiplier := job.job_type.disk_out_mult_required
  let c := job.job_type.disk_out_const_required
  let output_size_mb : ℚ := ((Int.ceil (multiplier * input_size_mb + c) : ℤ) : ℚ)
  let disk_in_required := max input_size_mb MIN_DISK
  let disk_out_required := max output_size_mb MIN_DISK
  { job with
    data := data
    disk_in_required := some disk_in_required
    disk_out_required := some disk_out_required
    last_modified := some now }

/-! ## JobExecutionManager -/

/-- `JobExecutionManager.update_status(job_exes, status, when, error=None)`:
guard checks raise; on success every execution receives the terminal fields
and the same status is cascaded to the parent jobs through
`Job.objects.update_status`. `now` is the `timezone.now()` read by this
manager and `now2` the one read inside the job manager. -/
def JobExecutionManager.update_status (job_exes : List JobExecution) (status : JobStatus)
    (when now now2 : Nat) (error : Option Nat) :
    Except PyError (List JobExecution × List Job) :=
  if status = .QUEUED then
    .error (.exception "QUEUED is an invalid status transition for job executions")
  else if status = .RUNNING then
    .error (.exception "cannot set a job execution to RUNNING")
  else if status = .FAILED ∧ error = none then
    .error (.exception "An error is required when status is FAILED")
  else if ¬status = .FAILED ∧ ¬error = none then
    .error (.exception "Status is invalid with an error")
  else
    let job_exes2 := job_exes.map (fun job_exe =>
      { job_exe with
        status := some status
        ended := some when
        error := error
        last_modified := some now })
    let jobs := job_exes.map (fun job_exe => job_exe.job)
    match JobManager.update_status jobs status when now2 error with
    | .error e => .error e
    | .ok jobs2 => .ok (job_exes2, jobs2)

/-- A raised usage error: the operation aborted with `raise Exception(...)`. -/
def isUsageError {α : Type} : Except PyError α → Bool
  | .error (.exception _) => true
  | _ => false

/-- The ready-to-queue/queueable condition of `queue_jobs`, spelled the way the
spec states it: eligible status, populated data, not superseded. -/
def readyToQueueSpec (job : Job) : Prop :=
  (job.status = .PENDING ∨ job.status = .CANCELED ∨ job.status = .FAILED) ∧
    job.data ≠ [] ∧ job.is_superseded = false

/-! ## Concrete fixtures for witnesses and counterexamples -/

/-- A plain job type (all column defaults). -/
def jt1 : JobType := { id := 1 }

/-- A queued job on its second execution (`num_exes = 2`). -/
def staleJob : Job := { id := 1, job_type := jt1, status := .QUEUED, num_exes := 2 }

/-- A store holding only `staleJob`. -/
def staleDb : Db := { jobs := [staleJob] }

/-- A running job on its first execution. -/
def runJob : Job := { id := 1, job_type := jt1, status := .RUNNING, num_exes := 1 }

/-- The execution-output row for `runJob`'s first (current) execution. -/
def outRow : JobExecutionOutput :=
  { job_exe_id := 9, job_id := 1, job_type_id := 1, exe_num := 1, output := [("out", 7)] }

/-- A store holding only `outRow`. -/
def outDb : Db := { job_exe_outputs := [outRow] }

/-- A running job used for failure scenarios. -/
def failJob : Job := { id := 2, job_type := jt1, status := .RUNNING, num_exes := 1 }

/-- A pending job with populated data (ready to queue). -/
def pendJob : Job := { id := 3, job_type := jt1, status := .PENDING, data := [("input", 1)] }

/-- A blocked job with populated data (not ready to queue). -/
def blockedJob : Job := { id := 4, job_type := jt1, status := .BLOCKED, data := [("input", 1)] }

/-- A job execution of `runJob`. -/
def exe1 : JobExecution := { id := 11, job := runJob }

/-- The current revision row of `jt1`. -/
def rev1 : JobTypeRevision := { id := 21, job_type_id := 1, revision_num := 1 }

/-- A store holding only `rev1`. -/
def revDb : Db := { job_type_revisions := [rev1] }

/-- A job in the middle of a supersession chain whose root is job 2. -/
def sjChain : Job := { id := 6, job_type := jt1, root_superseded_job := some 2 }

/-- The C8 scenario's job type: `mem_const=64, mem_mult=0, disk_out_const=64,
disk_out_mult=1.0` (remaining columns at their defaults). -/
def jtC8 : JobType :=
  { id := 3
    mem_const_required := 64
    mem_mult_required := 0
    disk_out_const_required := 64
    disk_out_mult_required := 1 }

/-- A fresh job of type `jtC8`. -/
def jobC8 : Job := { id := 3, job_type := jtC8 }

/-- `jobC8` populated with one input file of exactly 10 MiB (10485760 bytes). -/
def jobC8p : Job := JobManager.populate_job_data jobC8 [("input_file", 17)] [10485760] 1

/-- The sum of the values carried by the resources of `bs` named `n` (the total
amount an `add`/`subtract` fold applies to the entry named `n`). -/
def namedSum (bs : List Resource) (n : String) : ℚ :=
  ((bs.filter (fun r => r.name == n)).map (fun r => r.value)).sum

/-- A resource vector with only the standard zero resources. -/
def vecA : NodeResources := nodeResources []

/-- A resource vector carrying a custom resource absent from `vecA`. -/
def vecB : NodeResources := nodeResources [⟨"gpus", 1⟩]

/-- A resource vector sharing `vecB`'s custom resource name. -/
def vecC : NodeResources := nodeResources [⟨"gpus", 2⟩]

end Scale

namespace Scale

/-! ## Claims -/

/-- C1: the spec claims a job whose current exe_num disagrees with the expected
exe_num is left with status unchanged while `started`/`last_modified` are still
updated. The code cannot perform any of this: the loop body indexes the
job-to-exe-num dict with `locked_job.exe_num` — an attribute the Job model does
not define (its counter is `num_exes`) — so the first locked job raises
`AttributeError` (and the later `locked_job.exe_num.status` check could never
be satisfied by an int either). Here job 1 is on execution 2 and the update
carries the stale execution number 1: instead of the claimed timing-only
update, the whole operation aborts. -/
theorem update_jobs_to_running_raises_attribute_error :
    JobManager.update_jobs_to_running staleDb [(1, 1)] 5 6 =
      .error (.attributeError "Job object has no attribute exe_num") := rfl

/-- C2: the spec claims `complete_job` reads the output row matching
`(job_id, exe_num)` for the job's current execution number. The code queries
with `exe_num=job.exe_num`, an attribute the Job model does not define (the
counter is `num_exes`), so completion raises `AttributeError` even when the
matching output row (job 1, execution 1) exists, and the results are never
fetched. -/
theorem complete_job_raises_attribute_error :
    JobManager.complete_job outDb runJob 7 =
      .error (.attributeError "Job object has no attribute exe_num") := rfl

/-- C6 counterexample: `fail_job` called with a null error is NOT rejected as
a usage error — it returns successfully, leaving the job FAILED with no error
recorded, contrary to the claim. -/
theorem fail_job_accepts_null_error :
    JobManager.fail_job failJob 5 none =
      .ok { failJob with
            status := .FAILED
            error := none
            ended := some 5
            last_status_change := some 5 } ∧
    isUsageError (JobManager.fail_job failJob 5 none) = false :=
  ⟨rfl, rfl⟩

/-- C6 amended: `fail_job` performs no validation of its error argument: for
every job, time and error value E — including a null error — it succeeds and
sets status=FAILED, error=E, ended and last_status_change to the given time.
(Only Python's arity check rejects a call that omits the parameter.) -/
theorem fail_job_sets_failed_fields (job : Job) (when : Nat) (error : Option Nat) :
    ∃ j2, JobManager.fail_job job when error = .ok j2 ∧ j2.status = .FAILED ∧
      j2.error = error ∧ j2.ended = some when ∧ j2.last_status_change = some when :=
  ⟨_, rfl, rfl, rfl, rfl, rfl⟩

/-- C10: passing `priority=0` to `queue_jobs` is exactly a call without a
priority override (`if priority:` is falsy on 0), and the priority of every
job in the batch is left unchanged. -/
theorem queue_jobs_priority_zero_is_no_override (jobs : List Job) (when : Nat) :
    JobManager.queue_jobs jobs when (some 0) = JobManager.queue_jobs jobs when none ∧
    ∀ i, i < jobs.length → ∃ job j2, jobs.get? i = some job ∧
      (JobManager.queue_jobs jobs when (some 0)).1.get? i = some j2 ∧
      j2.priority = job.priority := by
  constructor
  · rfl
  · intro i hi
    obtain ⟨job, hget⟩ : ∃ job, jobs.get? i = some job :=
      ⟨jobs.get ⟨i, hi⟩, List.get?_eq_get hi⟩
    refine ⟨job, ?_, hget, ?_, ?_⟩
    · exact if jobSkippedByQueue job then job else queueJobFields when (some 0) job
    · show (jobs.map _).get? i = _
      rw [List.get?_map, hget]
      rfl
    · by_cases h : jobSkippedByQueue job = true <;>
        simp [h, queueJobFields, priorityTruthy]

/-- C3: both generic status updaters reject QUEUED as a target, reject FAILED
without an error, and reject any non-FAILED status combined with an error, all
as fatal usage errors; and whenever the execution-manager update succeeds, the
same status lands on each execution's parent job (positionally: the i-th
returned job is the updated parent of the i-th execution). -/
theorem update_status_rejects_and_cascades (jobs : List Job) (job_exes : List JobExecution)
    (status : JobStatus) (when now now2 : Nat) (error : Option Nat) :
    isUsageError (JobManager.update_status jobs .QUEUED when now error) = true ∧
    isUsageError (JobExecutionManager.update_status job_exes .QUEUED when now now2 error) = true ∧
    isUsageError (JobManager.update_status jobs .FAILED when now none) = true ∧
    isUsageError (JobExecutionManager.update_status job_exes .FAILED when now now2 none) = true ∧
    (¬status = .FAILED → ¬error = none →
      isUsageError (JobManager.update_status jobs status when now error) = true ∧
      isUsageError (JobExecutionManager.update_status job_exes status when now now2 error)
        = true) ∧
    (∀ r, JobExecutionManager.update_status job_exes status when now now2 error = .ok r →
      r.2.length = job_exes.length ∧
      ∀ i, i < job_exes.length → ∃ je j, job_exes.get? i = some je ∧ r.2.get? i = some j ∧
        j.status = status ∧ j.id = je.job.id) := by
  refine ⟨?_, ?_, ?_, ?_, ?_, ?_⟩
  · simp [JobManager.update_status, isUsageError]
  · simp [JobExecutionManager.update_status, isUsageError]
  · simp [JobManager.update_status, isUsageError]
  · simp [JobExecutionManager.update_status, isUsageError]
  · intro h1 h2
    constructor
    · by_cases hq : status = .QUEUED
      · simp [JobManager.update_status, hq, isUsageError]
      · simp [JobManager.update_status, hq, h1, h2, isUsageError]
    · by_cases hq : status = .QUEUED
      · simp [JobExecutionManager.update_status, hq, isUsageError]
      · by_cases hrn : status = .RUNNING
        · simp [JobExecutionManager.update_status, hq, hrn, isUsageError]
        · simp [JobExecutionManager.update_status, hq, hrn, h1, h2, isUsageError]
  · intro r hr
    by_cases h1 : status = .QUEUED
    · simp [JobExecutionManager.update_status, h1] at hr
    by_cases h2 : status = .RUNNING
    · simp [JobExecutionManager.update_status, h1, h2] at hr
    by_cases h3 : status = .FAILED ∧ error = none
    · simp [JobExecutionManager.update_status, h1, h2, h3] at hr
    by_cases h4 : ¬status = .FAILED ∧ ¬error = none
    · simp [JobExecutionManager.update_status, h1, h2, h3, h4] at hr
    simp only [JobExecutionManager.update_status, if_neg h1, if_neg h2, if_neg h3,
      if_neg h4] at hr
    simp only [JobManager.update_status, if_neg h1, if_neg h3, if_neg h4] at hr
    cases hr
    constructor
    · simp
    · intro i hi
      obtain ⟨je, hje⟩ : ∃ je, job_exes.get? i = some je :=
        ⟨job_exes.get ⟨i, hi⟩, List.get?_eq_get hi⟩
      refine ⟨je, updateStatusJobFields status when now2 error je.job, hje, ?_, rfl, rfl⟩
      show ((job_exes.map _).map _).get? i = _
      rw [List.get?_map, List.get?_map, hje]
      rfl

/-- C3 witness: the rejections at the empty batch and a one-execution batch,
and the COMPLETED cascade onto `exe1`'s parent job. -/
theorem update_status_rejects_and_cascades_witness :
    isUsageError (JobManager.update_status [] .QUEUED 0 0 none) = true ∧
    isUsageError (JobExecutionManager.update_status [exe1] .CANCELED 1 2 3 (some 4)) = true ∧
    ∃ r, JobExecutionManager.update_status [exe1] .COMPLETED 1 2 3 none = .ok r ∧
      r.2.length = 1 ∧
      ∃ je j, [exe1].get? 0 = some je ∧ r.2.get? 0 = some j ∧
        j.status = .COMPLETED ∧ j.id = je.job.id := by
  refine ⟨(update_status_rejects_and_cascades [] [exe1] .COMPLETED 0 0 0 none).1,
    ((update_status_rejects_and_cascades [] [exe1] .CANCELED 1 2 3 (some 4)).2.2.2.2.1
      (by decide) (by decide)).2, ?_⟩
  have h := (update_status_rejects_and_cascades [] [exe1] .COMPLETED 1 2 3 none).2.2.2.2.2
  refine ⟨_, rfl, ?_⟩
  have h2 := h _ rfl
  exact ⟨h2.1, h2.2 0 (by decide)⟩

/-- The skip condition of `queue_jobs` is the negation of the spec's
ready-to-queue condition. -/
theorem jobSkippedByQueue_false_iff (job : Job) :
    jobSkippedByQueue job = false ↔ readyToQueueSpec job := by
  unfold jobSkippedByQueue Job.is_ready_to_queue readyToQueueSpec
  cases hs : job.status <;> cases hd : job.data <;> cases hsup : job.is_superseded <;>
    simp_all

/-- C4: `queue_jobs` sets a job to QUEUED exactly when its status is PENDING,
CANCELED or FAILED, its data is populated and it is not superseded; each queued
job gets error/started/ended reset and `num_exes` incremented; the returned
list consists exactly of the queued jobs; and a job just queued is untouched by
a second `queue_jobs` call (no intervening terminal status), making requeuing
a no-op for it. -/
theorem queue_jobs_queues_exactly_ready (jobs : List Job) (when when2 : Nat)
    (priority priority2 : Option Int) :
    (JobManager.queue_jobs jobs when priority).1.length = jobs.length ∧
    (∀ i, i < jobs.length → ∃ job j2, jobs.get? i = some job ∧
      (JobManager.queue_jobs jobs when priority).1.get? i = some j2 ∧
      (readyToQueueSpec job →
        j2.status = .QUEUED ∧ j2.error = none ∧ j2.started = none ∧ j2.ended = none ∧
        j2.num_exes = job.num_exes + 1 ∧ j2 ∈ (JobManager.queue_jobs jobs when priority).2) ∧
      (¬readyToQueueSpec job → j2 = job)) ∧
    (∀ j2, j2 ∈ (JobManager.queue_jobs jobs when priority).2 →
      ∃ job, job ∈ jobs ∧ readyToQueueSpec job ∧ j2 = queueJobFields when priority job) ∧
    (∀ i j2, (JobManager.queue_jobs jobs when priority).1.get? i = some j2 →
      j2.status = .QUEUED →
      (JobManager.queue_jobs (JobManager.queue_jobs jobs when priority).1
        when2 priority2).1.get? i = some j2) := by
  refine ⟨?_, ?_, ?_, ?_⟩
  · simp [JobManager.queue_jobs]
  · intro i hi
    obtain ⟨job, hget⟩ : ∃ job, jobs.get? i = some job :=
      ⟨jobs.get ⟨i, hi⟩, List.get?_eq_get hi⟩
    refine ⟨job, if jobSkippedByQueue job then job else queueJobFields when priority job,
      hget, ?_, ?_, ?_⟩
    · show (jobs.map _).get? i = _
      rw [List.get?_map, hget]
      rfl
    · intro hready
      have hskip : jobSkippedByQueue job = false :=
        (jobSkippedByQueue_false_iff job).mpr hready
      refine ⟨by simp [hskip, queueJobFields], by simp [hskip, queueJobFields],
        by simp [hskip, queueJobFields], by simp [hskip, queueJobFields],
        by simp [hskip, queueJobFields], ?_⟩
      simp only [hskip, Bool.false_eq_true, if_false]
      exact List.mem_map_of_mem _
        (List.mem_filter.mpr ⟨List.get?_mem hget, by simp [hskip]⟩)
    · intro hnready
      have hskip : jobSkippedByQueue job = true := by
        cases h : jobSkippedByQueue job
        · exact absurd ((jobSkippedByQueue_false_iff job).mp h) hnready
        · rfl
      simp [hskip]
  · intro j2 hj2
    have hj2m : j2 ∈ (jobs.filter (fun job => !jobSkippedByQueue job)).map
        (queueJobFields when priority) := hj2
    rw [List.mem_map] at hj2m
    obtain ⟨job, hjob, hj2eq⟩ := hj2m
    rw [List.mem_filter] at hjob
    exact ⟨job, hjob.1, (jobSkippedByQueue_false_iff job).mp (by simpa using hjob.2),
      hj2eq.symm⟩
  · intro i j2 hget hq
    have hskip : jobSkippedByQueue j2 = true := by
      simp [jobSkippedByQueue, Job.is_ready_to_queue, hq]
    have hrw : (JobManager.queue_jobs (JobManager.queue_jobs jobs when priority).1
        when2 priority2).1 = ((JobManager.queue_jobs jobs when priority).1).map
        (fun job => if jobSkippedByQueue job then job else queueJobFields when2 priority2 job) :=
      rfl
    rw [hrw, List.get?_map, hget]
    simp [hskip]

/-- C4 witness: the batch `[pendJob, runJob]` at time 4 — the pending job is
queued (and is exactly the returned list's element, arising from a ready job),
the running job is untouched, and a second call at time 9 leaves the freshly
queued job unchanged. -/
theorem queue_jobs_queues_exactly_ready_witness :
    ∃ j2, (JobManager.queue_jobs [pendJob, runJob] 4 none).1.get? 0 = some j2 ∧
      j2.status = .QUEUED ∧ j2.num_exes = pendJob.num_exes + 1 ∧
      (∃ job3, job3 ∈ [pendJob, runJob] ∧ readyToQueueSpec job3 ∧
        j2 = queueJobFields 4 none job3) ∧
      (JobManager.queue_jobs (JobManager.queue_jobs [pendJob, runJob] 4 none).1
        9 none).1.get? 0 = some j2 ∧
      (JobManager.queue_jobs [pendJob, runJob] 4 none).1.get? 1 = some runJob := by
  obtain ⟨hlen, hpos, hmem, hsecond⟩ :=
    queue_jobs_queues_exactly_ready [pendJob, runJob] 4 9 none none
  obtain ⟨job, j2, hget, hget2, hready, hnready⟩ := hpos 0 (by decide)
  have hjob : job = pendJob := by
    have h0 : some pendJob = some job := by rw [← hget]; rfl
    exact (Option.some_inj.mp h0).symm
  subst hjob
  obtain ⟨hst, herr, hstd, hend, hnum, hmem2⟩ :=
    hready (by simp [readyToQueueSpec, pendJob])
  obtain ⟨jobB, j2B, hgetB, hget2B, hreadyB, hnrB⟩ := hpos 1 (by decide)
  have hjobB : jobB = runJob := by
    have h0 : some runJob = some jobB := by rw [← hgetB]; rfl
    exact (Option.some_inj.mp h0).symm
  subst hjobB
  have hj2B : j2B = runJob := hnrB (by simp [readyToQueueSpec, runJob])
  subst hj2B
  exact ⟨j2, hget2, hst, hnum, hmem j2 hmem2, hsecond 0 j2 hget2 hst, hget2B⟩

/-- A successful Django `get` returns a member of the table satisfying the
lookup predicate. -/
theorem djangoGet_ok_mem {α : Type} {l : List α} {p : α → Bool} {a : α}
    (h : djangoGet l p = .ok a) : a ∈ l ∧ p a = true := by
  unfold djangoGet at h
  cases hf : l.filter p with
  | nil => rw [hf] at h; simp at h
  | cons b t =>
    cases t with
    | nil =>
      rw [hf] at h
      have hb : b = a := by
        have := h
        simp only [] at this
        exact Except.ok.inj this
      subst hb
      have hm : b ∈ l.filter p := by rw [hf]; exact List.mem_cons_self b []
      exact ⟨(List.mem_filter.mp hm).1, (List.mem_filter.mp hm).2⟩
    | cons c u => rw [hf] at h; simp at h

/-- C5: a job created over a superseded job J inherits J's chain root when J
has one (rather than pointing at J), and points at J itself when J is a chain
head; and the new job's revision is pinned to the revision row matching the job
type's current `revision_num`. `hpos` encodes that stored primary keys are
positive (the source's `if not root_id:` is a Python truthiness test, so a
root id of 0 — impossible for a saved row — would be treated as absent). -/
theorem create_job_pins_revision_and_chain_root (db : Db) (jt : JobType) (event : Option Nat)
    (sj : Job) (del : Bool) (job : Job)
    (hpos : ∀ r2, sj.root_superseded_job = some r2 → 0 < r2)
    (h : JobManager.create_job db jt event (some sj) del = .ok job) :
    (∀ r2, sj.root_superseded_job = some r2 → job.root_superseded_job = some r2) ∧
    (sj.root_superseded_job = none → job.root_superseded_job = some sj.id) ∧
    ∃ rev, job.job_type_rev = some rev ∧ rev ∈ db.job_type_revisions ∧
      rev.job_type_id = jt.id ∧ rev.revision_num = jt.revision_num := by
  unfold JobManager.create_job at h
  by_cases ha : jt.is_active
  case neg => simp [ha] at h
  rw [if_neg (by simp [ha])] at h
  by_cases he : event.isNone
  case pos => rw [if_pos he] at h; simp at h
  rw [if_neg he] at h
  cases hrev : JobTypeRevisionManager.get_revision db jt.id jt.revision_num with
  | error e => rw [hrev] at h; simp at h
  | ok rev =>
    rw [hrev] at h
    obtain rfl := Except.ok.inj h
    refine ⟨?_, ?_, ?_⟩
    · intro r2 hr2
      have hne : r2 != 0 := by
        have := hpos r2 hr2
        simp only [bne_iff_ne, ne_eq]
        omega
      simp [hr2, hne]
    · intro hn
      simp [hn]
    · have hmem := djangoGet_ok_mem hrev
      refine ⟨rev, rfl, hmem.1, ?_, ?_⟩
      · have := hmem.2
        simp only [Bool.and_eq_true, beq_iff_eq] at this
        exact this.1
      · have := hmem.2
        simp only [Bool.and_eq_true, beq_iff_eq] at this
        exact this.2

/-- C5 witness: creating over `sjChain` (whose chain root is job 2) in a store
holding `jt1`'s current revision row. -/
theorem create_job_pins_revision_and_chain_root_witness :
    ∃ job, JobManager.create_job revDb jt1 (some 7) (some sjChain) true = .ok job ∧
      job.root_superseded_job = some 2 ∧
      ∃ rev, job.job_type_rev = some rev ∧ rev ∈ revDb.job_type_revisions ∧
        rev.job_type_id = jt1.id ∧ rev.revision_num = jt1.revision_num := by
  have hpos : ∀ r2, sjChain.root_superseded_job = some r2 → 0 < r2 := by
    intro r2 hr2
    have h2 : (2 : Nat) = r2 := by simpa [sjChain] using hr2
    omega
  obtain ⟨hroot, hnone, hrev⟩ := create_job_pins_revision_and_chain_root revDb jt1 (some 7)
    sjChain true _ hpos rfl
  exact ⟨_, rfl, hroot 2 (by simp [sjChain]), hrev⟩

/-- C7: `supersede_jobs` marks every job of the batch superseded with the given
time, switches exactly the PENDING/BLOCKED members to CANCELED, and leaves the
status of every other member untouched. -/
theorem supersede_jobs_marks_and_cancels (jobs : List Job) (when now now2 : Nat) :
    ∃ l, JobManager.supersede_jobs jobs when now now2 = .ok l ∧ l.length = jobs.length ∧
      ∀ i, i < jobs.length → ∃ job j2, jobs.get? i = some job ∧ l.get? i = some j2 ∧
        j2.is_superseded = true ∧ j2.superseded = some when ∧
        ((job.status = .PENDING ∨ job.status = .BLOCKED) → j2.status = .CANCELED) ∧
        (¬(job.status = .PENDING ∨ job.status = .BLOCKED) → j2.status = job.status) := by
  unfold JobManager.supersede_jobs
  by_cases hemp : ((jobs.map (supersedeJobFields when now)).filter pendingOrBlocked).isEmpty
  case pos =>
    rw [if_pos hemp]
    refine ⟨_, rfl, by simp, ?_⟩
    intro i hi
    obtain ⟨job, hget⟩ : ∃ job, jobs.get? i = some job :=
      ⟨jobs.get ⟨i, hi⟩, List.get?_eq_get hi⟩
    refine ⟨job, supersedeJobFields when now job, hget, ?_, rfl, rfl, ?_, fun _ => rfl⟩
    · rw [List.get?_map, hget]
      rfl
    intro hpb
    exfalso
    have hmem : supersedeJobFields when now job ∈
        (jobs.map (supersedeJobFields when now)).filter pendingOrBlocked := by
      refine List.mem_filter.mpr ⟨List.mem_map_of_mem _ (List.get?_mem hget), ?_⟩
      rcases hpb with hp | hb
      · simp [pendingOrBlocked, supersedeJobFields, hp]
      · simp [pendingOrBlocked, supersedeJobFields, hb]
    rw [List.isEmpty_iff] at hemp
    rw [hemp] at hmem
    exact List.not_mem_nil _ hmem
  case neg =>
    rw [if_neg hemp]
    have hok : JobManager.update_status
        ((jobs.map (supersedeJobFields when now)).filter pendingOrBlocked)
        .CANCELED when now2 none =
        .ok (((jobs.map (supersedeJobFields when now)).filter pendingOrBlocked).map
          (updateStatusJobFields .CANCELED when now2 none)) := by
      unfold JobManager.update_status
      simp
    rw [hok]
    refine ⟨_, rfl, by simp, ?_⟩
    intro i hi
    obtain ⟨job, hget⟩ : ∃ job, jobs.get? i = some job :=
      ⟨jobs.get ⟨i, hi⟩, List.get?_eq_get hi⟩
    refine ⟨job, if job.status = .PENDING ∨ job.status = .BLOCKED then
        updateStatusJobFields .CANCELED when now2 none (supersedeJobFields when now job)
      else supersedeJobFields when now job, hget, ?_, ?_, ?_, ?_, ?_⟩
    · rw [List.get?_map, List.get?_map, hget]
      rfl
    · by_cases hpb : job.status = .PENDING ∨ job.status = .BLOCKED
      · rw [if_pos hpb]; rfl
      · rw [if_neg hpb]; rfl
    · by_cases hpb : job.status = .PENDING ∨ job.status = .BLOCKED
      · rw [if_pos hpb]; rfl
      · rw [if_neg hpb]; rfl
    · intro hpb
      rw [if_pos hpb]; rfl
    · intro hpb
      rw [if_neg hpb]; rfl

/-- C7 witness: superseding `[pendJob, runJob]` cancels the pending job and
leaves the running job's status untouched, both marked superseded. -/
theorem supersede_jobs_marks_and_cancels_witness :
    ∃ l, JobManager.supersede_jobs [pendJob, runJob] 3 4 5 = .ok l ∧
      (∃ j2, l.get? 0 = some j2 ∧ j2.is_superseded = true ∧ j2.superseded = some 3 ∧
        j2.status = .CANCELED) ∧
      ∃ j2B, l.get? 1 = some j2B ∧ j2B.is_superseded = true ∧ j2B.status = .RUNNING := by
  obtain ⟨l, hl, hlen, hpos⟩ := supersede_jobs_marks_and_cancels [pendJob, runJob] 3 4 5
  obtain ⟨job, j2, hget, hget2, hsup, hsupw, hpb, hnpb⟩ := hpos 0 (by decide)
  have hjob : job = pendJob := by
    have h0 : some pendJob = some job := by rw [← hget]; rfl
    exact (Option.some_inj.mp h0).symm
  subst hjob
  obtain ⟨jobB, j2B, hgetB, hget2B, hsupB, hsupwB, hpbB, hnpbB⟩ := hpos 1 (by decide)
  have hjobB : jobB = runJob := by
    have h0 : some runJob = some jobB := by rw [← hgetB]; rfl
    exact (Option.some_inj.mp h0).symm
  subst hjobB
  refine ⟨l, hl, ⟨j2, hget2, hsup, hsupw, hpb (by simp [pendJob])⟩,
    ⟨j2B, hget2B, hsupB, ?_⟩⟩
  have hst := hnpbB (by simp [runJob])
  simpa [runJob] using hst

/-- C10 witness: the theorem at the one-job batch `[pendJob]`, index 0. -/
theorem queue_jobs_priority_zero_is_no_override_witness :
    JobManager.queue_jobs [pendJob] 4 (some 0) = JobManager.queue_jobs [pendJob] 4 none ∧
    ∃ job j2, [pendJob].get? 0 = some job ∧
      (JobManager.queue_jobs [pendJob] 4 (some 0)).1.get? 0 = some j2 ∧
      j2.priority = job.priority :=
  ⟨(queue_jobs_priority_zero_is_no_override [pendJob] 4).1,
    (queue_jobs_priority_zero_is_no_override [pendJob] 4).2 0 (by decide)⟩

end Scale

namespace Scale

/-- C8: for a 10 MiB input (10485760 bytes) and a job type with
`mem_const=64, mem_mult=0, disk_out_const=64, disk_out_mult=1.0`,
`populate_job_data` derives `disk_in_required = 10` and
`disk_out_required = max(ceil(1.0*10 + 64), MIN_DISK) = 74`, and
`Job.get_resources` reserves `mem = max(ceil(0*10 + 64), MIN_MEM) = 128`. -/
theorem resource_formula_scenario :
    jobC8p.disk_in_required = some 10 ∧ jobC8p.disk_out_required = some 74 ∧
    jobC8p.get_resources.get "mem" = some 128 := by
  refine ⟨?_, ?_, ?_⟩
  · norm_num [jobC8p, jobC8, jtC8, JobManager.populate_job_data, MIN_DISK]
  · norm_num [jobC8p, jobC8, jtC8, JobManager.populate_job_data, MIN_DISK]
  · simp [jobC8p, jobC8, jtC8, JobManager.populate_job_data, Job.get_resources,
      JobType.get_resources, nodeResources, setResource, NodeResources.add, addResource,
      NodeResources.remove_resource, NodeResources.get, MIN_DISK, MIN_MEM, MIN_CPUS,
      List.filter, List.find?]
    norm_num

/-- The present-name branch of one `add` step. -/
theorem addResource_of_present {rs : List Resource} {r : Resource}
    (h : rs.any (fun x => x.name == r.name) = true) :
    addResource rs r =
      rs.map (fun x => if x.name = r.name then { x with value := x.value + r.value } else x) := by
  unfold addResource
  rw [if_pos h]

/-- The present-name branch of one `subtract` step. -/
theorem subResource_of_present {rs : List Resource} {r : Resource}
    (h : rs.any (fun x => x.name == r.name) = true) :
    subResource rs r =
      rs.map (fun x => if x.name = r.name then { x with value := x.value - r.value } else x) := by
  unfold subResource
  rw [if_pos h]

/-- Name presence is invariant under a name-preserving per-entry update. -/
theorem any_name_map (rs : List Resource) (f : Resource → Resource)
    (hf : ∀ x, (f x).name = x.name) (n : String) :
    (rs.map f).any (fun x => x.name == n) = rs.any (fun x => x.name == n) := by
  induction rs with
  | nil => rfl
  | cons x t ih => simp [hf, ih]

/-- Folding `add` over a vector whose names are all present amounts to adding,
entrywise, the summed values of the same name. -/
theorem foldl_addResource (bs : List Resource) (rs : List Resource)
    (h : ∀ r ∈ bs, rs.any (fun x => x.name == r.name) = true) :
    bs.foldl addResource rs =
      rs.map (fun x => { x with value := x.value + namedSum bs x.name }) := by
  induction bs generalizing rs with
  | nil => simp [namedSum]
  | cons b bs ih =>
    rw [List.foldl_cons, addResource_of_present (h b (List.mem_cons_self b bs))]
    rw [ih]
    · rw [List.map_map]
      refine List.map_congr_left ?_
      intro x hx
      by_cases hxb : x.name = b.name
      · simp only [Function.comp_apply, if_pos hxb, namedSum, List.filter_cons, hxb,
          beq_self_eq_true, if_true, List.map_cons, List.sum_cons, add_assoc]
      · simp only [Function.comp_apply, if_neg hxb, namedSum, List.filter_cons]
        have : (b.name == x.name) = false := by
          simp only [beq_eq_false_iff_ne, ne_eq]
          exact fun hc => hxb hc.symm
        simp [this]
    · intro r hr
      rw [any_name_map]
      · exact h r (List.mem_cons_of_mem b hr)
      · intro x
        by_cases hc : x.name = b.name <;> simp [hc]

/-- Folding `subtract` over a vector whose names are all present amounts to
subtracting, entrywise, the summed values of the same name. -/
theorem foldl_subResource (bs : List Resource) (rs : List Resource)
    (h : ∀ r ∈ bs, rs.any (fun x => x.name == r.name) = true) :
    bs.foldl subResource rs =
      rs.map (fun x => { x with value := x.value - namedSum bs x.name }) := by
  induction bs generalizing rs with
  | nil => simp [namedSum]
  | cons b bs ih =>
    rw [List.foldl_cons, subResource_of_present (h b (List.mem_cons_self b bs))]
    rw [ih]
    · rw [List.map_map]
      refine List.map_congr_left ?_
      intro x hx
      by_cases hxb : x.name = b.name
      · simp only [Function.comp_apply, if_pos hxb, namedSum, List.filter_cons, hxb,
          beq_self_eq_true, if_true, List.map_cons, List.sum_cons, sub_sub]
      · simp only [Function.comp_apply, if_neg hxb, namedSum, List.filter_cons]
        have : (b.name == x.name) = false := by
          simp only [beq_eq_false_iff_ne, ne_eq]
          exact fun hc => hxb hc.symm
        simp [this]
    · intro r hr
      rw [any_name_map]
      · exact h r (List.mem_cons_of_mem b hr)
      · intro x
        by_cases hc : x.name = b.name <;> simp [hc]

/-- Adding and then subtracting a vector whose names all exist on the left
operand restores the left operand exactly (rational arithmetic is exact). -/
theorem add_subtract_roundtrip_eq (a b : NodeResources)
    (hsub : ∀ r ∈ b.resources, a.has r.name = true) :
    (a.add b).subtract b = a := by
  have hadd : (a.add b).resources = a.resources.map
      (fun x => { x with value := x.value + namedSum b.resources x.name }) :=
    foldl_addResource b.resources a.resources hsub
  unfold NodeResources.subtract
  rw [hadd]
  rw [foldl_subResource b.resources _ (fun r hr => by
    rw [any_name_map]
    · exact hsub r hr
    · intro x; rfl)]
  rw [List.map_map]
  have hid : a.resources.map ((fun x => { x with
      value := x.value - namedSum b.resources x.name }) ∘ (fun x => { x with
      value := x.value + namedSum b.resources x.name })) = a.resources := by
    have hptw : ∀ x ∈ a.resources, ((fun x => ({ x with
        value := x.value - namedSum b.resources x.name } : Resource)) ∘ (fun x => { x with
        value := x.value + namedSum b.resources x.name })) x = x := by
      intro x hx
      simp
    rw [List.map_congr_left hptw, List.map_id']
  rw [hid]

/-- With distinct names, the dict lookup of a member's name finds that member. -/
theorem find?_name_of_nodup {rs : List Resource} {r : Resource}
    (hN : (rs.map Resource.name).Nodup) (hr : r ∈ rs) :
    rs.find? (fun x => x.name == r.name) = some r := by
  induction rs with
  | nil => cases hr
  | cons x t ih =>
    rw [List.map_cons, List.nodup_cons] at hN
    rcases List.mem_cons.mp hr with hrx | hrt
    · subst hrx
      simp [List.find?_cons]
    · have hxn : (x.name == r.name) = false := by
        simp only [beq_eq_false_iff_ne, ne_eq]
        intro hc
        exact hN.1 (hc ▸ List.mem_map_of_mem Resource.name hrt)
      rw [List.find?_cons, hxn]
      exact ih hN.2 hrt

/-- A vector with distinct resource names is `is_equal` to itself. -/
theorem is_equal_self (a : NodeResources) (hN : (a.resources.map Resource.name).Nodup) :
    a.is_equal a = true := by
  unfold NodeResources.is_equal NodeResources.has NodeResources.get
  refine (Bool.and_eq_true _ _).mpr ⟨(Bool.and_eq_true _ _).mpr ⟨?_, ?_⟩, ?_⟩
  · rw [List.all_eq_true]
    intro r hr
    rw [List.any_eq_true]
    exact ⟨r, hr, by simp⟩
  · rw [List.all_eq_true]
    intro r hr
    rw [List.any_eq_true]
    exact ⟨r, hr, by simp⟩
  · rw [List.all_eq_true]
    intro r hr
    rw [find?_name_of_nodup hN hr]
    simp

/-- C9 counterexample: with `vecB` carrying a custom resource name that `vecA`
lacks, `vecA.add(vecB).subtract(vecB)` keeps the new name (at value 0), so the
round trip is NOT `is_equal` to the original `vecA` — its name-set check
fails. -/
theorem add_subtract_roundtrip_fails_on_new_name :
    ((vecA.add vecB).subtract vecB).is_equal vecA = false := by decide

/-- C9 amended: whenever every resource name of B is already present in A (the
standard `cpus`/`mem`/`disk` names always are — only a custom resource of B
missing from A breaks this), `A.add(B).subtract(B)` is `is_equal` to the
original A; arithmetic is modeled exactly over ℚ, and the rounded values then
agree trivially. `ha` holds for every vector built by the constructor. -/
theorem add_subtract_roundtrip_of_names_present (a b : NodeResources)
    (ha : (a.resources.map Resource.name).Nodup)
    (hsub : ∀ r ∈ b.resources, a.has r.name = true) :
    ((a.add b).subtract b).is_equal a = true := by
  rw [add_subtract_roundtrip_eq a b hsub]
  exact is_equal_self a ha

/-- C9 witness: the amended theorem at `vecC` and `vecB`, which share the
custom resource name. -/
theorem add_subtract_roundtrip_of_names_present_witness :
    ((vecC.add vecB).subtract vecB).is_equal vecC = true :=
  add_subtract_roundtrip_of_names_present vecC vecB (by decide) (by decide)

end Scale
